import Mathlib

/-!
# Verification of the Snapshot Discovery & Classification Engine

A shallow embedding, in Lean 4, of the core of the `website-design-analyzer`
repository: the URL variant generator, the CDX record parser, the
deduplicator/sorter, the change-type classifier (`determineChangeType`),
the A/B-test interval analyzer (`detectABTests`), and the orchestrating
request handler from `server.js`.

JavaScript strings are embedded as Lean `String`s (operating on their
character lists), JavaScript numbers arising from `parseInt`/`Date`
arithmetic as `Int` (with `Option Int` standing for a possible `NaN`),
and `JSON.parse` as an executable JSON parser returning `Option Json`.
-/

/-! ## Generic JavaScript-style helpers -/

/-- `s.substring(a, b)` on a JavaScript string: the characters from index
`a` (inclusive) to `b` (exclusive), clamped to the string. -/
def jsSubstring (s : String) (a b : Nat) : String :=
  ⟨(s.data.drop a).take (b - a)⟩

/-- JavaScript `s.startsWith(p)`. -/
def jsStartsWith (s p : String) : Bool :=
  p.data.isPrefixOf s.data

/-- Replace the first occurrence of `pat` in a character list by `rep`. -/
def replaceFirstAux (pat rep : List Char) : List Char → List Char
  | [] => []
  | c :: cs =>
    if pat.isPrefixOf (c :: cs) then rep ++ (c :: cs).drop pat.length
    else c :: replaceFirstAux pat rep cs

/-- JavaScript `s.replace(pat, rep)` with a plain-string pattern: replaces
only the first occurrence. -/
def jsReplaceFirst (s pat rep : String) : String :=
  ⟨replaceFirstAux pat.data rep.data s.data⟩

/-- Code-unit lexicographic comparison of character lists: the truth of
`a.localeCompare(b) <= 0` for the plain ASCII strings this engine sorts. -/
def lexLeChars : List Char → List Char → Bool
  | [], _ => true
  | _ :: _, [] => false
  | a :: as, b :: bs =>
    if a < b then true
    else if b < a then false
    else lexLeChars as bs

/-- `a.localeCompare(b) <= 0` on timestamps: lexicographic string order. -/
def localeLe (a b : String) : Bool :=
  lexLeChars a.data b.data

/-- Insertion order of a JavaScript `Set`: keep the first occurrence of
each element, dropping the ones already seen. -/
def setDedupAux {α : Type} [DecidableEq α] (seen : List α) : List α → List α
  | [] => []
  | a :: l => if a ∈ seen then setDedupAux seen l else a :: setDedupAux (a :: seen) l

/-- `[...new Set(variants)]`: de-duplicate keeping first occurrences. -/
def setDedup {α : Type} [DecidableEq α] (l : List α) : List α :=
  setDedupAux [] l

/-! ## VariantGenerator (`generateUrlVariants`, server.js lines 12–47) -/

/-- The components of a parsed URL that `generateUrlVariants` reads.
As in the WHATWG API, `protocol` carries its trailing colon. -/
structure URLParts where
  protocol : String
  hostname : String
  pathname : String
  search : String
deriving Repr, DecidableEq

/-- Break a character list at the first occurrence of `sep`, returning the
part before and the part after; `none` when `sep` does not occur. -/
def breakOnSep (sep : List Char) : List Char → Option (List Char × List Char)
  | [] => if sep = [] then some ([], []) else none
  | c :: cs =>
    if sep.isPrefixOf (c :: cs) then some ([], (c :: cs).drop sep.length)
    else (breakOnSep sep cs).map (fun p => (c :: p.1, p.2))

/-- Split a character list at the first `/`, `?` or `#`, returning the
host part and the remainder (which keeps its leading delimiter). -/
def splitHostChars : List Char → List Char × List Char
  | [] => ([], [])
  | c :: cs =>
    if c = '/' ∨ c = '?' ∨ c = '#' then ([], c :: cs)
    else
      let p := splitHostChars cs
      (c :: p.1, p.2)

/-- Split the part after the host into `pathname` and `search` (dropping a
fragment), with the WHATWG conventions: an empty path reads back as `"/"`,
and an empty query as `""`. -/
def splitPathChars (rest : List Char) : List Char × List Char :=
  let noFrag := rest.takeWhile (· ≠ '#')
  let path := noFrag.takeWhile (· ≠ '?')
  let query := (noFrag.dropWhile (· ≠ '?')).drop 1
  (if path = [] then ['/'] else path, if query = [] then [] else '?' :: query)

/-- Model of the WHATWG `new URL(s)` constructor restricted to the absolute
`scheme://host[/path][?query][#fragment]` shape the analyzer receives; any
other shape is a parse failure (in JavaScript, a thrown `TypeError` that
`generateUrlVariants` catches). -/
def parseURL (s : String) : Option URLParts :=
  match breakOnSep "://".data s.data with
  | none => none
  | some (scheme, rest) =>
    let okScheme : Bool :=
      match scheme with
      | [] => false
      | c :: cs =>
        c.isAlpha && cs.all (fun d => d.isAlpha || d.isDigit || d == '+' || d == '-' || d == '.')
    if okScheme then
      let hp := splitHostChars rest
      if hp.1 = [] then none
      else
        let pq := splitPathChars hp.2
        some { protocol := ⟨scheme.map Char.toLower⟩ ++ ":"
               hostname := ⟨hp.1.map Char.toLower⟩
               pathname := ⟨pq.1⟩
               search := ⟨pq.2⟩ }
    else none

/-- The variant list built by `generateUrlVariants` before the final
`new Set` de-duplication (server.js lines 13–44). On parse failure the
`catch` leaves only the original input in the list. -/
def rawVariants (url : String) : List String :=
  match parseURL url with
  | none => [url]
  | some u =>
    let domain := u.hostname
    let path := u.pathname ++ u.search
    [url] ++
    (if jsStartsWith domain "www." then
      let withoutWww := jsReplaceFirst domain "www." ""
      [u.protocol ++ "//" ++ withoutWww ++ path, withoutWww ++ path, withoutWww]
    else
      [u.protocol ++ "//www." ++ domain ++ path, "www." ++ domain ++ path, "www." ++ domain]) ++
    [domain ++ path, domain] ++
    (if path = "/" ∨ path = "" then [] else [u.protocol ++ "//" ++ domain, domain])

/-- `generateUrlVariants` (server.js lines 12–47): build the variant list
and return `[...new Set(variants)]`. -/
def generateUrlVariants (url : String) : List String :=
  setDedup (rawVariants url)

/-! ## ChangeClassifier (`determineChangeType`, server.js lines 207–224) -/

/-- JavaScript `parseInt(s)` on the strings this engine feeds it: the
value of the leading run of decimal digits, or `none` (standing for `NaN`)
when the string does not start with a digit. -/
def jsParseInt (s : String) : Option Int :=
  match s.data.takeWhile Char.isDigit with
  | [] => none
  | ds => some (Int.ofNat (ds.foldl (fun n c => n * 10 + (c.toNat - 48)) 0))

/-- A JavaScript `x <= n` where `x` may be `NaN` (embedded as `none`):
every comparison against `NaN` is false. -/
def odLe (x : Option Int) (n : Int) : Bool :=
  match x with
  | none => false
  | some v => v ≤ n

/-- A JavaScript `x < n` where `x` may be `NaN` (embedded as `none`). -/
def odLt (x : Option Int) (n : Int) : Bool :=
  match x with
  | none => false
  | some v => v < n

/-- Days since 1970-01-01 of the proleptic Gregorian date `y`-`m`-`d`
(month `1`–`12`), as ECMAScript `MakeDay` computes it for a normalized
month (the standard civil-from-days era decomposition). -/
def daysFromCivil (y m d : Int) : Int :=
  let y' := if m ≤ 2 then y - 1 else y
  let era := Int.fdiv y' 400
  let yoe := y' - era * 400
  let mp := Int.fmod (m + 9) 12
  let doy := Int.fdiv (153 * mp + 2) 5 + d - 1
  let doe := yoe * 365 + Int.fdiv yoe 4 - Int.fdiv yoe 100 + doy
  era * 146097 + doe - 719468

/-- `new Date(y, m0, d).getTime()` in milliseconds (time-of-day zero,
timezone offset zero): ECMAScript maps a year `0`–`99` to `1900 + y`,
normalizes the zero-based month `m0` into the year, and counts days with
`d` allowed to roll over the month. -/
def jsMakeDate (y m0 d : Int) : Int :=
  let yr := if 0 ≤ y ∧ y ≤ 99 then y + 1900 else y
  let ym := yr + Int.fdiv m0 12
  let mn := Int.fmod m0 12
  (daysFromCivil ym (mn + 1) 1 + (d - 1)) * 86400000

/-- The `snapshotTime` of `determineChangeType` (server.js lines 209–213):
`new Date(parseInt(ts.substring(0,4)), parseInt(ts.substring(4,6)) - 1,
parseInt(ts.substring(6,8)))`, as a millisecond count, `none` when any
`parseInt` yields `NaN` (making the whole date invalid). -/
def snapshotTimeOf (timestamp : String) : Option Int :=
  match jsParseInt (jsSubstring timestamp 0 4),
        jsParseInt (jsSubstring timestamp 4 6),
        jsParseInt (jsSubstring timestamp 6 8) with
  | some y, some m, some d => some (jsMakeDate y (m - 1) d)
  | _, _, _ => none

/-- The `monthsAgo` of `determineChangeType` (server.js lines 215–217):
`Math.floor((now - snapshotTime) / (1000*60*60*24*30))`. -/
def monthsAgoOf (timestamp : String) (now : Int) : Option Int :=
  (snapshotTimeOf timestamp).map
    (fun t => Int.fdiv (now - t) (1000 * 60 * 60 * 24 * 30))

/-- `determineChangeType` (server.js lines 207–224), with the current
wall-clock time passed explicitly as `now` in milliseconds. -/
def determineChangeType (timestamp : String) (now : Int) : String :=
  let monthsAgo := monthsAgoOf timestamp now
  if odLe monthsAgo 2 then "recent"
  else if odLe monthsAgo 6 then "moderate"
  else if odLe monthsAgo 12 then "significant"
  else if odLe monthsAgo 24 then "major"
  else "historical"

/-- The label mapping of spec §4.5, written from the spec's words as a
function of the `monthsAgo` value, for comparison with the code. -/
def specLabelOfMonthsAgo (ma : Int) : String :=
  if ma ≤ 2 then "recent"
  else if ma ≤ 6 then "moderate"
  else if ma ≤ 12 then "significant"
  else if ma ≤ 24 then "major"
  else "historical"

/-- The five change-type labels of the data model. -/
def changeTypeLabels : List String :=
  ["recent", "moderate", "significant", "major", "historical"]

/-! ## IntervalAnalyzer (`detectABTests`, part_001 lines 443–504) -/

/-- A snapshot record as the frontend analyzer consumes it. -/
structure Snapshot where
  timestamp : String
  url : String
  statusCode : String
  archiveUrl : String
  changeType : String
deriving Repr, DecidableEq

/-- `formatDate` (part_001 line 766): `YYYY/MM/DD`, or `"Unknown"` for a
falsy (empty) timestamp. -/
def formatDate (timestamp : String) : String :=
  if timestamp = "" then "Unknown"
  else jsSubstring timestamp 0 4 ++ "/" ++ jsSubstring timestamp 4 6 ++ "/"
    ++ jsSubstring timestamp 6 8

/-- An experiment window as `detectABTests` emits it. `daysDuration` is
`none` when the day difference is `NaN`. -/
structure ABTest where
  period : String
  type : String
  confidence : Int
  daysDuration : Option Int
  snapshots : Snapshot × Snapshot
  estimatedImpact : String
deriving Repr, DecidableEq

/-- The body of the `detectABTests` loop (part_001 lines 450–500): the
window pushed for the consecutive pair `(previous, current)`. -/
def abWindow (previous current : Snapshot) : ABTest :=
  let timeDiff :=
    match jsParseInt current.timestamp, jsParseInt previous.timestamp with
    | some c, some p => some (c - p)
    | _, _ => none
  let daysDiff := timeDiff.map (fun t => Int.fdiv t 1000000)
  let base :=
    if odLt daysDiff 30 then ("rapid_iteration", (85 : Int))
    else if odLt daysDiff 90 then ("monthly_optimization", (70 : Int))
    else if odLt daysDiff 180 then ("seasonal_update", (60 : Int))
    else ("unknown", (50 : Int))
  let adjusted :=
    if current.changeType ≠ "" then
      if current.changeType = "recent" then ("continuous_optimization", base.2 + 10)
      else if current.changeType = "significant" then ("major_ab_test", base.2 + 15)
      else if current.changeType = "redesign" then ("full_redesign", base.2 + 20)
      else base
    else base
  { period := formatDate previous.timestamp ++ " - " ++ formatDate current.timestamp
    type := adjusted.1
    confidence := min 95 adjusted.2
    daysDuration := daysDiff
    snapshots := (previous, current)
    estimatedImpact :=
      if odLt daysDiff 30 then "high"
      else if odLt daysDiff 90 then "medium"
      else "low" }

/-- `detectABTests` (part_001 lines 443–504): sort ascending by timestamp,
emit one window per consecutive pair, return `tests.slice(0, 3)`. -/
def detectABTests (snapshots : List Snapshot) : List ABTest :=
  if snapshots.length < 2 then []
  else
    let sortedSnapshots := snapshots.mergeSort (fun a b => localeLe a.timestamp b.timestamp)
    let tests := (sortedSnapshots.zip sortedSnapshots.tail).map (fun p => abWindow p.1 p.2)
    tests.take 3

/-- A five-snapshot input (one capture per month, January–May 2023) on
which the head/tail divergence of `detectABTests` is visible. -/
def fiveMonthlySnapshots : List Snapshot :=
  [ ⟨"20230101000000", "http://x.com/", "200", "", ""⟩,
    ⟨"20230201000000", "http://x.com/", "200", "", ""⟩,
    ⟨"20230301000000", "http://x.com/", "200", "", ""⟩,
    ⟨"20230401000000", "http://x.com/", "200", "", ""⟩,
    ⟨"20230501000000", "http://x.com/", "200", "", ""⟩ ]

/-! ## RecordParser (`server.js` lines 97–128)

`JSON.parse` is embedded as an executable JSON parser over character
lists, fuelled by the input length. -/

/-- A JSON value. Numbers keep their source lexeme: the analyzer never
computes with a JSON number, it only compares values against strings
(where a number never matches) and interpolates them into an URL. -/
inductive Json where
  | null
  | bool (b : Bool)
  | num (raw : String)
  | str (s : String)
  | arr (elems : List Json)
  | obj (fields : List (String × Json))

/-- Drop leading JSON whitespace. -/
def skipWs : List Char → List Char
  | [] => []
  | c :: cs => if c = ' ' ∨ c = '\t' ∨ c = '\n' ∨ c = '\r' then skipWs cs else c :: cs

/-- Value of a hexadecimal digit. -/
def hexVal (c : Char) : Option Nat :=
  if '0' ≤ c ∧ c ≤ '9' then some (c.toNat - 48)
  else if 'a' ≤ c ∧ c ≤ 'f' then some (c.toNat - 87)
  else if 'A' ≤ c ∧ c ≤ 'F' then some (c.toNat - 55)
  else none

/-- Parse the body of a JSON string literal (after the opening quote),
returning its characters and the input after the closing quote. -/
def parseJStringBody : List Char → Option (List Char × List Char)
  | [] => none
  | '"' :: rest => some ([], rest)
  | '\\' :: rest =>
    match rest with
    | [] => none
    | 'u' :: rest₂ =>
      match rest₂ with
      | h1 :: h2 :: h3 :: h4 :: rest₃ =>
        match hexVal h1, hexVal h2, hexVal h3, hexVal h4 with
        | some a, some b, some c, some d =>
          (parseJStringBody rest₃).map
            (fun p => (Char.ofNat (((a * 16 + b) * 16 + c) * 16 + d) :: p.1, p.2))
        | _, _, _, _ => none
      | _ => none
    | e :: rest₂ =>
      match (match e with
        | '"' => some '"'
        | '\\' => some '\\'
        | '/' => some '/'
        | 'b' => some (Char.ofNat 8)
        | 'f' => some (Char.ofNat 12)
        | 'n' => some '\n'
        | 'r' => some '\r'
        | 't' => some '\t'
        | _ => none) with
      | none => none
      | some c => (parseJStringBody rest₂).map (fun p => (c :: p.1, p.2))
  | c :: rest => (parseJStringBody rest).map (fun p => (c :: p.1, p.2))

/-- Characters a JSON number lexeme may contain. -/
def numChar (c : Char) : Bool :=
  c.isDigit || c = '-' || c = '+' || c = '.' || c = 'e' || c = 'E'

/-- Lex a JSON number (the caller has checked the first character). -/
def parseJNumber (cs : List Char) : Option (List Char × List Char) :=
  match cs.takeWhile numChar with
  | [] => none
  | lex => some (lex, cs.drop lex.length)

mutual

/-- Parse one JSON value; the fuel bounds the recursion depth. -/
def parseJVal : Nat → List Char → Option (Json × List Char)
  | 0, _ => none
  | fuel + 1, cs =>
    match skipWs cs with
    | [] => none
    | c :: rest =>
      if c = '"' then
        (parseJStringBody rest).map (fun p => (Json.str ⟨p.1⟩, p.2))
      else if c = '[' then
        match skipWs rest with
        | ']' :: rest₂ => some (Json.arr [], rest₂)
        | cs₂ => (parseJItems fuel cs₂).map (fun p => (Json.arr p.1, p.2))
      else if c = '\x7b' then
        match skipWs rest with
        | '\x7d' :: rest₂ => some (Json.obj [], rest₂)
        | cs₂ => (parseJFields fuel cs₂).map (fun p => (Json.obj p.1, p.2))
      else if c = 't' then
        if "rue".data.isPrefixOf rest then some (Json.bool true, rest.drop 3) else none
      else if c = 'f' then
        if "alse".data.isPrefixOf rest then some (Json.bool false, rest.drop 4) else none
      else if c = 'n' then
        if "ull".data.isPrefixOf rest then some (Json.null, rest.drop 3) else none
      else if c.isDigit ∨ c = '-' then
        (parseJNumber (c :: rest)).map (fun p => (Json.num ⟨p.1⟩, p.2))
      else none

/-- Parse the items of a non-empty JSON array up to `]`. -/
def parseJItems : Nat → List Char → Option (List Json × List Char)
  | 0, _ => none
  | fuel + 1, cs =>
    match parseJVal fuel cs with
    | none => none
    | some (v, rest) =>
      match skipWs rest with
      | ',' :: rest₂ => (parseJItems fuel rest₂).map (fun p => (v :: p.1, p.2))
      | ']' :: rest₂ => some ([v], rest₂)
      | _ => none

/-- Parse the fields of a non-empty JSON object up to the closing brace. -/
def parseJFields : Nat → List Char → Option (List (String × Json) × List Char)
  | 0, _ => none
  | fuel + 1, cs =>
    match skipWs cs with
    | '"' :: rest =>
      match parseJStringBody rest with
      | none => none
      | some (key, rest₂) =>
        match skipWs rest₂ with
        | ':' :: rest₃ =>
          match parseJVal fuel rest₃ with
          | none => none
          | some (v, rest₄) =>
            match skipWs rest₄ with
            | ',' :: rest₅ =>
              (parseJFields fuel rest₅).map (fun p => ((⟨key⟩, v) :: p.1, p.2))
            | '\x7d' :: rest₅ => some ([(⟨key⟩, v)], rest₅)
            | _ => none
        | _ => none
    | _ => none

end

/-- `JSON.parse(s)`: parse one value and require only whitespace after it;
`none` embeds the thrown `SyntaxError`. -/
def jsonParse (s : String) : Option Json :=
  match parseJVal (s.data.length + 1) s.data with
  | some (v, rest) => if skipWs rest = [] then some v else none
  | none => none

mutual

/-- Template-literal conversion of a JSON value to text (`${x}`), for the
`archiveUrl` interpolation. A number is rendered by its source lexeme. -/
def jsTemplateString : Json → String
  | .null => "null"
  | .bool b => if b then "true" else "false"
  | .num raw => raw
  | .str s => s
  | .arr l => ⟨jsTemplateStringList l⟩
  | .obj _ => "[object Object]"

/-- Elements of `Array.prototype.toString`: comma-joined conversions. -/
def jsTemplateStringList : List Json → List Char
  | [] => []
  | [j] => (jsTemplateString j).data
  | j :: l => (jsTemplateString j).data ++ ',' :: jsTemplateStringList l

end

/-- One parsed snapshot record as the server accumulates it
(server.js lines 115–121). A record is only created when `statusCode`
strict-equals one of the accepted strings, and only when `timestamp` is a
string (otherwise `determineChangeType(timestamp)` throws a `TypeError`
caught by the per-line handler); `url` keeps whatever JSON value the line
carried. -/
structure RawSnapshot where
  timestamp : String
  url : Json
  statusCode : String
  archiveUrl : String
  changeType : String

/-- JavaScript whitespace for `trim` (the forms occurring in CDX text). -/
def isJsWs (c : Char) : Bool :=
  c = ' ' ∨ c = '\t' ∨ c = '\n' ∨ c = '\r' ∨ c = Char.ofNat 12 ∨ c = Char.ofNat 11

/-- JavaScript `s.trim()`. -/
def jsTrim (s : String) : String :=
  ⟨((s.data.dropWhile isJsWs).reverse.dropWhile isJsWs).reverse⟩

/-- `line.replace(/,$/, '')`: strip one trailing comma. -/
def stripTrailingComma (s : String) : String :=
  match s.data.getLast? with
  | some ',' => ⟨s.data.dropLast⟩
  | _ => s

/-- The indexable elements a JavaScript destructuring
`const [a, b, c] = data` sees, for values whose `.length` the guard
`data.length >= 3` can read: an array yields its elements, a string its
one-character strings, anything else has `undefined` length and fails the
guard. -/
def jsElems : Json → Option (List Json)
  | .arr l => some l
  | .str s => some (s.data.map (fun c => Json.str ⟨[c]⟩))
  | _ => none

/-- The per-line body of the CDX parsing loop (server.js lines 104–127):
trim, strip one trailing comma, skip blanks, `JSON.parse`, require at
least three elements, keep only status `"200"`, `"301"` or `"-"`, and
build the record; `none` embeds every `continue`, including the
`catch` of a parse error or of the `TypeError` on a non-string timestamp. -/
def parseLine (now : Int) (rawLine : String) : Option RawSnapshot :=
  let line := stripTrailingComma (jsTrim rawLine)
  if line = "" then none
  else
    match jsonParse line with
    | none => none
    | some data =>
      match jsElems data with
      | none => none
      | some elems =>
        if 3 ≤ elems.length then
          match elems[0]?, elems[1]?, elems[2]? with
          | some timestamp, some originalUrl, some statusCode =>
            match statusCode with
            | Json.str sc =>
              if sc = "200" ∨ sc = "301" ∨ sc = "-" then
                match timestamp with
                | Json.str ts =>
                  some { timestamp := ts
                         url := originalUrl
                         statusCode := sc
                         archiveUrl := "https://web.archive.org/web/" ++ ts ++ "/"
                           ++ jsTemplateString originalUrl
                         changeType := determineChangeType ts now }
                | _ => none
              else none
            | _ => none
          | _, _, _ => none
        else none

/-- The line loop of the handler (server.js lines 100–128): at least two
lines are required, the first (header) line is skipped, and each further
line contributes at most one record. -/
def parseCDXLines (now : Int) (lines : List String) : List RawSnapshot :=
  if 1 < lines.length then (lines.drop 1).filterMap (parseLine now) else []

/-- Split a character list on a separator character; like JavaScript
`s.split(sep)`, the empty input yields one empty piece. -/
def jsSplitChar (sep : Char) : List Char → List (List Char)
  | [] => [[]]
  | c :: cs =>
    let r := jsSplitChar sep cs
    if c = sep then [] :: r
    else
      match r with
      | [] => [[c]]
      | h :: t => (c :: h) :: t

/-- JavaScript `s.split('\n')`. -/
def jsSplitNewline (s : String) : List String :=
  (jsSplitChar '\n' s.data).map (fun l => ⟨l⟩)

/-- CDX response text to records: `textContent.trim().split('\n')`
followed by the line loop (server.js lines 97–128). -/
def parseCDXText (now : Int) (text : String) : List RawSnapshot :=
  parseCDXLines now (jsSplitNewline (jsTrim text))

/-- The raw index text of spec Scenario B. -/
def scenarioBText : String :=
  "[\x7b\"a\":1\x7d]\n[\"20230115000000\",\"http://x.com/\",\"200\"]\n[\"20230110000000\",\"http://x.com/\",\"404\"]"

/-! ## Deduplicator/Sorter (server.js lines 161–170) -/

/-- `allSnapshots.sort((a, b) => b.timestamp.localeCompare(a.timestamp))`:
the stable descending sort by timestamp. -/
def sortSnapshotsDesc (l : List RawSnapshot) : List RawSnapshot :=
  l.mergeSort (fun a b => localeLe b.timestamp a.timestamp)

/-- `snapshot.timestamp.substring(0, 6)`: the year-month key. -/
def yearMonthOf (s : RawSnapshot) : String :=
  jsSubstring s.timestamp 0 6

/-- The de-duplication filter (server.js lines 165–168): keep a record
exactly when its index equals the first index carrying its year-month. -/
def keepFirstPerMonth (l : List RawSnapshot) : List RawSnapshot :=
  (l.enum.filter
    (fun p => decide (l.findIdx (fun s => decide (yearMonthOf s = yearMonthOf p.2)) = p.1))).map
    Prod.snd

/-- The full Deduplicator/Sorter pass: sort descending, keep the first
record per calendar month, truncate to 50. -/
def processSnapshots (l : List RawSnapshot) : List RawSnapshot :=
  (keepFirstPerMonth (sortSnapshotsDesc l)).take 50

/-! ## DiscoveryOrchestrator (the request handler, server.js lines 50–195) -/

/-- The observable outcome of one CDX attempt for one variant: a transport
failure, timeout or non-2xx response (all of which `continue`), or a
response body. -/
inductive FetchOutcome where
  | failed
  | ok (text : String)

/-- One iteration of the variant loop (server.js lines 66–146): the
records one variant contributes. An empty or whitespace body is the
"no snapshots found" `continue`. -/
def attemptVariant (now : Int) (outcome : FetchOutcome) : List RawSnapshot :=
  match outcome with
  | .failed => []
  | .ok text => if jsTrim text = "" then [] else parseCDXText now text

/-- The sequential first-success-wins walk over the variants: the
accumulated records and the `successfulUrl` (server.js lines 63–146,
including the `break` on the first variant with records). -/
def runVariants (now : Int) (fetch : String → FetchOutcome) :
    List String → List RawSnapshot × Option String
  | [] => ([], none)
  | v :: rest =>
    let snapshots := attemptVariant now (fetch v)
    if 0 < snapshots.length then (snapshots, some v)
    else runVariants now fetch rest

/-- The JSON payload the endpoint answers with, together with the HTTP
status it is sent under (`res.json` is 200, the catch branch 500). -/
structure ApiResponse where
  url : String
  available : Bool
  historicalSnapshots : List RawSnapshot
  analysisQuality : String
  dataSource : String
  successfulUrl : Option String
  error : Option String
  httpStatus : Nat

/-- The handler body after a successful browser launch
(server.js lines 59–182). -/
def waybackHandler (now : Int) (fetch : String → FetchOutcome) (url : String) : ApiResponse :=
  let r := runVariants now fetch (generateUrlVariants url)
  let allSnapshots := r.1
  if allSnapshots.length = 0 then
    { url := url
      available := false
      historicalSnapshots := []
      analysisQuality := "low"
      dataSource := "wayback_api_no_data"
      successfulUrl := none
      error := none
      httpStatus := 200 }
  else
    let finalSnapshots := processSnapshots allSnapshots
    { url := url
      available := decide (0 < finalSnapshots.length)
      historicalSnapshots := finalSnapshots
      analysisQuality :=
        if 15 < finalSnapshots.length then "high"
        else if 5 < finalSnapshots.length then "medium" else "low"
      dataSource := "wayback_api_playwright"
      successfulUrl := r.2
      error := none
      httpStatus := 200 }

/-- The whole endpoint (server.js lines 50–195): launching the browser can
fail, which the outer `catch` reports as a 500 error payload; otherwise
the handler body runs. -/
def waybackEndpoint (now : Int) (browser : Except String (String → FetchOutcome))
    (url : String) : ApiResponse :=
  match browser with
  | .error msg =>
    { url := url
      available := false
      historicalSnapshots := []
      analysisQuality := "low"
      dataSource := "error"
      successfulUrl := none
      error := some msg
      httpStatus := 500 }
  | .ok fetch => waybackHandler now fetch url

/-! ### Properties of the `Set`-based de-duplication -/

theorem setDedupAux_sublist {α : Type} [DecidableEq α] :
    ∀ (l seen : List α), List.Sublist (setDedupAux seen l) l := by
  intro l
  induction l with
  | nil => intro seen; simp [setDedupAux]
  | cons a l ih =>
    intro seen
    simp only [setDedupAux]
    split
    · exact (ih seen).cons a
    · exact (ih (a :: seen)).cons₂ a

theorem setDedupAux_not_mem_seen {α : Type} [DecidableEq α] :
    ∀ (l seen : List α) (x : α), x ∈ setDedupAux seen l → x ∉ seen := by
  intro l
  induction l with
  | nil => intro seen x hx; simp [setDedupAux] at hx
  | cons a l ih =>
    intro seen x hx
    simp only [setDedupAux] at hx
    split at hx
    · exact ih seen x hx
    · rcases List.mem_cons.mp hx with rfl | hx
      · assumption
      · intro hxs
        exact ih (a :: seen) x hx (List.mem_cons_of_mem a hxs)

theorem setDedupAux_nodup {α : Type} [DecidableEq α] :
    ∀ (l seen : List α), (setDedupAux seen l).Nodup := by
  intro l
  induction l with
  | nil => intro seen; simp [setDedupAux]
  | cons a l ih =>
    intro seen
    simp only [setDedupAux]
    split
    · exact ih seen
    · refine List.nodup_cons.mpr ⟨?_, ih (a :: seen)⟩
      intro hmem
      exact setDedupAux_not_mem_seen l (a :: seen) a hmem (List.mem_cons_self a seen)

theorem setDedupAux_mem {α : Type} [DecidableEq α] :
    ∀ (l seen : List α) (x : α), x ∈ l → x ∉ seen → x ∈ setDedupAux seen l := by
  intro l
  induction l with
  | nil => intro seen x hx; simp at hx
  | cons a l ih =>
    intro seen x hx hseen
    simp only [setDedupAux]
    split
    · rcases List.mem_cons.mp hx with rfl | hx
      · exact absurd ‹x ∈ seen› hseen
      · exact ih seen x hx hseen
    · by_cases hxa : x = a
      · subst hxa; exact List.mem_cons_self x _
      · rcases List.mem_cons.mp hx with rfl | hx
        · exact absurd rfl hxa
        · refine List.mem_cons_of_mem a (ih (a :: seen) x hx ?_)
          simp [List.mem_cons, hxa, hseen]

theorem setDedup_cons_head {α : Type} [DecidableEq α] (a : α) (l : List α) :
    setDedup (a :: l) = a :: setDedupAux [a] l := by
  simp [setDedup, setDedupAux]

theorem rawVariants_head : ∀ u : String, ∃ rest, rawVariants u = u :: rest := by
  intro u
  unfold rawVariants
  cases parseURL u with
  | none => exact ⟨[], rfl⟩
  | some p => exact ⟨_, rfl⟩

/-- C6: `generateUrlVariants u` starts with `u` itself, contains no
duplicate entries, and is the order-preserving de-duplication of the
candidate list: a sublist of it containing every candidate. -/
theorem claimC6_variant_list_dedup_head (u : String) :
    (generateUrlVariants u).head? = some u ∧
    (generateUrlVariants u).Nodup ∧
    List.Sublist (generateUrlVariants u) (rawVariants u) ∧
    ∀ v ∈ rawVariants u, v ∈ generateUrlVariants u := by
  obtain ⟨rest, hraw⟩ := rawVariants_head u
  refine ⟨?_, ?_, ?_, ?_⟩
  · rw [generateUrlVariants, hraw, setDedup_cons_head]
    rfl
  · exact setDedupAux_nodup _ _
  · exact setDedupAux_sublist _ _
  · intro v hv
    exact setDedupAux_mem _ _ v hv (List.not_mem_nil v)

/-- C7: when URL parsing fails, `generateUrlVariants` returns exactly the
one-element list holding the original input (the `catch` branch adds no
variants, and de-duplicating `[url]` is the identity). -/
theorem claimC7_parse_failure_single_variant (u : String)
    (h : parseURL u = none) : generateUrlVariants u = [u] := by
  unfold generateUrlVariants rawVariants
  rw [h]
  rfl

/-- Witness for C7 at the concrete malformed input `"notaurl"`
(no scheme separator, so URL parsing fails). -/
theorem claimC7_witness :
    parseURL "notaurl" = none ∧ generateUrlVariants "notaurl" = ["notaurl"] :=
  ⟨by decide, claimC7_parse_failure_single_variant "notaurl" (by decide)⟩

/-! ### Arithmetic for the classifier -/

theorem ediv_nested (x : Int) {a b : Int} (ha : 0 < a) (hb : 0 < b) :
    x / a / b = x / (a * b) := by
  have ha0 : a ≠ 0 := Int.ne_of_gt ha
  have hb0 : b ≠ 0 := Int.ne_of_gt hb
  have hab : a * b ≠ 0 := mul_ne_zero ha0 hb0
  have h0 : a * (x / a) + x % a = x := Int.ediv_add_emod x a
  have h1 : b * (x / a / b) + (x / a) % b = x / a := Int.ediv_add_emod (x / a) b
  set q := x / a / b with hq
  set r1 := (x / a) % b with hr1
  set r0 := x % a with hr0
  have hr0n : 0 ≤ r0 := Int.emod_nonneg x ha0
  have hr0l : r0 < a := Int.emod_lt_of_pos x ha
  have hr1n : 0 ≤ r1 := Int.emod_nonneg (x / a) hb0
  have hr1l : r1 < b := Int.emod_lt_of_pos (x / a) hb
  have hx : x = (a * r1 + r0) + q * (a * b) := by
    have := h0
    rw [← h1] at this
    ring_nf
    ring_nf at this
    linarith
  have hsmall : (a * r1 + r0) / (a * b) = 0 := by
    apply Int.ediv_eq_zero_of_lt
    · positivity
    · nlinarith [mul_le_mul_of_nonneg_left (by omega : r1 ≤ b - 1) (le_of_lt ha)]
  have key : x / (a * b) = q :=
    calc x / (a * b) = ((a * r1 + r0) + q * (a * b)) / (a * b) := by rw [← hx]
      _ = (a * r1 + r0) / (a * b) + q := Int.add_mul_ediv_right _ _ hab
      _ = q := by rw [hsmall]; ring
  exact key.symm

theorem fdiv_nested (x : Int) {a b : Int} (ha : 0 < a) (hb : 0 < b) :
    Int.fdiv (Int.fdiv x a) b = Int.fdiv x (a * b) := by
  rw [Int.fdiv_eq_ediv _ (le_of_lt ha), Int.fdiv_eq_ediv _ (le_of_lt hb),
    Int.fdiv_eq_ediv _ (le_of_lt (mul_pos ha hb))]
  exact ediv_nested x ha hb

theorem jsParseInt_digits (s : String) (hne : s.data ≠ [])
    (hdig : ∀ c ∈ s.data, c.isDigit = true) :
    jsParseInt s = some (Int.ofNat (s.data.foldl (fun n c => n * 10 + (c.toNat - 48)) 0)) := by
  unfold jsParseInt
  rw [List.takeWhile_eq_self_iff.mpr hdig]
  cases h : s.data with
  | nil => exact absurd h hne
  | cons c cs => rfl

/-- Under a 14-digit timestamp, `snapshotTimeOf` succeeds. -/
theorem snapshotTimeOf_digits (ts : String) (hlen : ts.data.length = 14)
    (hdig : ∀ c ∈ ts.data, c.isDigit = true) :
    ∃ t, snapshotTimeOf ts = some t := by
  unfold snapshotTimeOf
  have sub : ∀ a b : Nat, (jsSubstring ts a b).data = (ts.data.drop a).take (b - a) := by
    intro a b; rfl
  have hform : ∀ a b : Nat, a < 14 → b ≤ 14 → a < b →
      ∃ v, jsParseInt (jsSubstring ts a b) = some v := by
    intro a b hab hb hlt
    have hne : (jsSubstring ts a b).data ≠ [] := by
      rw [sub]
      intro hnil
      have := congrArg List.length hnil
      simp [List.length_take, List.length_drop, hlen] at this
      omega
    have hd : ∀ c ∈ (jsSubstring ts a b).data, c.isDigit = true := by
      intro c hc
      rw [sub] at hc
      exact hdig c (List.mem_of_mem_drop (List.mem_of_mem_take hc))
    exact ⟨_, jsParseInt_digits _ hne hd⟩
  obtain ⟨y, hy⟩ := hform 0 4 (by omega) (by omega) (by omega)
  obtain ⟨m, hm⟩ := hform 4 6 (by omega) (by omega) (by omega)
  obtain ⟨d, hd⟩ := hform 6 8 (by omega) (by omega) (by omega)
  rw [hy, hm, hd]
  exact ⟨_, rfl⟩

/-- C3: for every 14-digit timestamp and every current time, the
classifier's `monthsAgo` is `floor(days_between / 30)` computed from the
year/month/day components of the timestamp, the label is the inclusive
threshold mapping of spec §4.5 applied to `monthsAgo`, and the result is
always exactly one of the five labels. -/
theorem claimC3_classifier_thresholds (ts : String) (now : Int)
    (hlen : ts.data.length = 14) (hdig : ∀ c ∈ ts.data, c.isDigit = true) :
    ∃ t ma : Int,
      snapshotTimeOf ts = some t ∧
      monthsAgoOf ts now = some ma ∧
      ma = Int.fdiv (Int.fdiv (now - t) 86400000) 30 ∧
      determineChangeType ts now = specLabelOfMonthsAgo ma ∧
      determineChangeType ts now ∈ changeTypeLabels := by
  obtain ⟨t, ht⟩ := snapshotTimeOf_digits ts hlen hdig
  refine ⟨t, Int.fdiv (now - t) (1000 * 60 * 60 * 24 * 30), ht, ?_, ?_, ?_, ?_⟩
  · simp [monthsAgoOf, ht]
  · rw [fdiv_nested (now - t) (by norm_num) (by norm_num)]
    norm_num
  · have hma : monthsAgoOf ts now = some (Int.fdiv (now - t) (1000 * 60 * 60 * 24 * 30)) := by
      simp [monthsAgoOf, ht]
    unfold determineChangeType specLabelOfMonthsAgo
    rw [hma]
    simp only [odLe, decide_eq_true_eq]
  · simp only [determineChangeType, changeTypeLabels]
    split_ifs <;> simp

/-- Witness for C3 at the timestamp `"20230115000000"` and
`now = 0` (the epoch). -/
theorem claimC3_witness :
    ∃ t ma : Int,
      snapshotTimeOf "20230115000000" = some t ∧
      monthsAgoOf "20230115000000" 0 = some ma ∧
      ma = Int.fdiv (Int.fdiv (0 - t) 86400000) 30 ∧
      determineChangeType "20230115000000" 0 = specLabelOfMonthsAgo ma ∧
      determineChangeType "20230115000000" 0 ∈ changeTypeLabels :=
  claimC3_classifier_thresholds "20230115000000" 0 (by decide) (by decide)

/-- C2 counterexample: at `now` = midnight 2023-03-17 (UTC-less model
time), the record `"20230131000000"` is dated exactly 45 days before
`now`, yet `determineChangeType` classifies it as `"recent"`, not the
`"moderate"` the claim states (45 days is `floor(45/30) = 1` month ago,
and the `≤ 2` bucket already catches it). -/
theorem claimC2_counterexample :
    86400000 * daysFromCivil 2023 3 17 - jsMakeDate 2023 0 31 = 45 * 86400000 ∧
    snapshotTimeOf "20230131000000" = some (jsMakeDate 2023 0 31) ∧
    determineChangeType "20230131000000" (86400000 * daysFromCivil 2023 3 17) = "recent" ∧
    "recent" ≠ "moderate" := by
  refine ⟨by decide, by decide, by decide, by decide⟩

/-- C2 as amended: a record dated exactly 45 days before `now` classifies
as `recent` (not `moderate`), and one dated 10 days before `now` also
classifies as `recent`. -/
theorem claimC2_amended_both_recent (ts₁ ts₂ : String) (now t₁ t₂ : Int)
    (h₁ : snapshotTimeOf ts₁ = some t₁) (e₁ : now - t₁ = 45 * 86400000)
    (h₂ : snapshotTimeOf ts₂ = some t₂) (e₂ : now - t₂ = 10 * 86400000) :
    determineChangeType ts₁ now = "recent" ∧ determineChangeType ts₂ now = "recent" := by
  have hma₁ : monthsAgoOf ts₁ now
      = some (Int.fdiv (45 * 86400000) (1000 * 60 * 60 * 24 * 30)) := by
    simp [monthsAgoOf, h₁, e₁]
  have hma₂ : monthsAgoOf ts₂ now
      = some (Int.fdiv (10 * 86400000) (1000 * 60 * 60 * 24 * 30)) := by
    simp [monthsAgoOf, h₂, e₂]
  constructor
  · unfold determineChangeType
    rw [hma₁]
    decide
  · unfold determineChangeType
    rw [hma₂]
    decide

/-- Witness for the amended C2: `now` = midnight 2023-03-17;
`"20230131000000"` is 45 days earlier and `"20230307000000"` is 10 days
earlier; both classify as `recent`. -/
theorem claimC2_amended_witness :
    determineChangeType "20230131000000" (86400000 * daysFromCivil 2023 3 17) = "recent" ∧
    determineChangeType "20230307000000" (86400000 * daysFromCivil 2023 3 17) = "recent" :=
  claimC2_amended_both_recent "20230131000000" "20230307000000"
    (86400000 * daysFromCivil 2023 3 17) (jsMakeDate 2023 0 31) (jsMakeDate 2023 2 7)
    (by decide) (by decide) (by decide) (by decide)

/-! ### IntervalAnalyzer theorems -/

/-- C10: with fewer than two records, `detectABTests` returns no windows. -/
theorem claimC10_short_input_no_windows (snapshots : List Snapshot)
    (h : snapshots.length < 2) : detectABTests snapshots = [] := by
  unfold detectABTests
  simp [h]

/-- Witness for C10 at the empty record list. -/
theorem claimC10_witness : detectABTests [] = [] :=
  claimC10_short_input_no_windows [] (by decide)

theorem abWindow_confidence_range (previous current : Snapshot) :
    50 ≤ (abWindow previous current).confidence ∧
      (abWindow previous current).confidence ≤ 95 := by
  simp only [abWindow]
  split_ifs <;> constructor <;> decide

/-- C8: every window `detectABTests` emits carries an integer confidence
in `[0, 95]` (indeed in `[50, 95]`). -/
theorem claimC8_confidence_bounds (snapshots : List Snapshot) (t : ABTest)
    (ht : t ∈ detectABTests snapshots) :
    0 ≤ t.confidence ∧ t.confidence ≤ 95 := by
  unfold detectABTests at ht
  split_ifs at ht with h
  · simp at ht
  · have ht' := List.mem_of_mem_take ht
    obtain ⟨p, _, hp⟩ := List.mem_map.mp ht'
    have := abWindow_confidence_range p.1 p.2
    rw [hp] at this
    exact ⟨by omega, this.2⟩

/-! ### The `localeCompare` order -/

theorem lexLeChars_iff : ∀ as bs : List Char, lexLeChars as bs = true ↔ ¬ List.lt bs as := by
  intro as
  induction as with
  | nil =>
    intro bs
    simp only [lexLeChars, true_iff]
    intro h
    nomatch h
  | cons a as ih =>
    intro bs
    cases bs with
    | nil =>
      simp only [lexLeChars, Bool.false_eq_true, false_iff, not_not]
      exact List.lt.nil a as
    | cons b bs =>
      simp only [lexLeChars]
      split_ifs with hab hba
      · simp only [true_iff]
        intro h
        cases h with
        | head _ _ h => exact absurd hab (lt_asymm h)
        | tail h₁ h₂ _ => exact h₂ hab
      · simp only [Bool.false_eq_true, false_iff, not_not]
        exact List.lt.head _ _ hba
      · rw [ih bs]
        constructor
        · intro h hlt
          cases hlt with
          | head _ _ hb => exact hba hb
          | tail _ _ htl => exact h htl
        · intro h hlt
          exact h (List.lt.tail hba hab hlt)

theorem localeLe_iff_le (a b : String) : localeLe a b = true ↔ a ≤ b := by
  rw [localeLe, lexLeChars_iff, List.lt_iff_lex_lt, String.le_iff_toList_le, ← not_lt]
  exact Iff.rfl

/-! ### Deduplicator/Sorter theorems -/

theorem sortSnapshotsDesc_pairwise (l : List RawSnapshot) :
    (sortSnapshotsDesc l).Pairwise (fun a b => b.timestamp ≤ a.timestamp) := by
  have htrans : ∀ a b c : RawSnapshot,
      localeLe b.timestamp a.timestamp = true →
      localeLe c.timestamp b.timestamp = true →
      localeLe c.timestamp a.timestamp = true := by
    intro a b c h1 h2
    rw [localeLe_iff_le] at *
    exact le_trans h2 h1
  have htotal : ∀ a b : RawSnapshot,
      (localeLe b.timestamp a.timestamp || localeLe a.timestamp b.timestamp) = true := by
    intro a b
    simp only [Bool.or_eq_true, localeLe_iff_le]
    exact le_total b.timestamp a.timestamp
  have hs := List.sorted_mergeSort htrans htotal l
  exact hs.imp (fun h => (localeLe_iff_le _ _).mp h)

theorem keepFirstPerMonth_sublist (m : List RawSnapshot) :
    List.Sublist (keepFirstPerMonth m) m := by
  have h1 := List.filter_sublist
    (p := fun p : Nat × RawSnapshot =>
      decide (m.findIdx (fun s => decide (yearMonthOf s = yearMonthOf p.2)) = p.1))
    m.enum
  have h2 := h1.map Prod.snd
  rw [List.enum_map_snd] at h2
  exact h2

theorem keepFirstPerMonth_months_distinct (m : List RawSnapshot) :
    (keepFirstPerMonth m).Pairwise (fun a b => yearMonthOf a ≠ yearMonthOf b) := by
  have henum : m.enum.Pairwise (fun p r : Nat × RawSnapshot => p.1 < r.1) := by
    have h := List.pairwise_lt_range m.length
    rw [← List.enum_map_fst m] at h
    exact (List.pairwise_map).mp h
  have hfilt := henum.filter
    (fun p : Nat × RawSnapshot =>
      decide (m.findIdx (fun s => decide (yearMonthOf s = yearMonthOf p.2)) = p.1))
  have hkey : (m.enum.filter
      (fun p : Nat × RawSnapshot =>
        decide (m.findIdx (fun s => decide (yearMonthOf s = yearMonthOf p.2)) = p.1))).Pairwise
      (fun p r => yearMonthOf p.2 ≠ yearMonthOf r.2) := by
    refine hfilt.imp_of_mem ?_
    intro p r hp hr hlt heq
    have hqp := List.of_mem_filter hp
    have hqr := List.of_mem_filter hr
    simp only [decide_eq_true_eq] at hqp hqr
    have hfuneq : (fun s => decide (yearMonthOf s = yearMonthOf p.2))
        = (fun s => decide (yearMonthOf s = yearMonthOf r.2)) := by rw [heq]
    rw [hfuneq] at hqp
    omega
  exact (List.pairwise_map).mpr hkey

/-- C4: the Deduplicator/Sorter output is strictly decreasing by
timestamp, has pairwise-distinct year-month prefixes, and has at most 50
records. -/
theorem claimC4_dedup_sorter_invariants (l : List RawSnapshot) :
    (processSnapshots l).Pairwise (fun a b => b.timestamp < a.timestamp) ∧
    (processSnapshots l).Pairwise (fun a b => yearMonthOf a ≠ yearMonthOf b) ∧
    (processSnapshots l).length ≤ 50 := by
  have hsorted := sortSnapshotsDesc_pairwise l
  have hsub := keepFirstPerMonth_sublist (sortSnapshotsDesc l)
  have hle : (keepFirstPerMonth (sortSnapshotsDesc l)).Pairwise
      (fun a b => b.timestamp ≤ a.timestamp) :=
    List.Pairwise.sublist hsub hsorted
  have hym := keepFirstPerMonth_months_distinct (sortSnapshotsDesc l)
  have hstrict : (keepFirstPerMonth (sortSnapshotsDesc l)).Pairwise
      (fun a b => b.timestamp < a.timestamp) := by
    refine (hle.and hym).imp ?_
    intro a b h
    refine lt_of_le_of_ne h.1 (fun heq => h.2 ?_)
    unfold yearMonthOf
    rw [heq]
  have htake := List.take_sublist 50 (keepFirstPerMonth (sortSnapshotsDesc l))
  refine ⟨List.Pairwise.sublist htake hstrict, List.Pairwise.sublist htake hym, ?_⟩
  unfold processSnapshots
  simp only [List.length_take]
  omega

/-! ### RecordParser theorems -/

theorem parseCDXLines_eq_filterMap (now : Int) (lines : List String) :
    parseCDXLines now lines = (lines.drop 1).filterMap (parseLine now) := by
  unfold parseCDXLines
  split_ifs with h
  · rfl
  · match lines with
    | [] => rfl
    | [a] => rfl
    | a :: b :: t => simp at h

theorem parseLine_blank (now : Int) (l : String)
    (h : stripTrailingComma (jsTrim l) = "") : parseLine now l = none := by
  simp [parseLine, h]

theorem parseLine_badJson (now : Int) (l : String)
    (h : jsonParse (stripTrailingComma (jsTrim l)) = none) : parseLine now l = none := by
  by_cases hb : stripTrailingComma (jsTrim l) = ""
  · exact parseLine_blank now l hb
  · simp [parseLine, hb, h]

theorem parseLine_shortArray (now : Int) (l : String) (j : Json) (elems : List Json)
    (hj : jsonParse (stripTrailingComma (jsTrim l)) = some j)
    (he : jsElems j = some elems) (hlt : elems.length < 3) : parseLine now l = none := by
  by_cases hb : stripTrailingComma (jsTrim l) = ""
  · exact parseLine_blank now l hb
  · simp [parseLine, hb, hj, he, Nat.not_le.mpr hlt]

theorem parseLine_status (now : Int) (a : String) (r : RawSnapshot)
    (h : parseLine now a = some r) :
    r.statusCode = "200" ∨ r.statusCode = "301" ∨ r.statusCode = "-" := by
  simp only [parseLine] at h
  repeat' split at h
  any_goals exact Option.noConfusion h
  obtain rfl := Option.some.inj h
  simp_all

/-- C5: the record parser skips the header line; a line that trims and
comma-strips to blank, fails `JSON.parse`, or parses to fewer than 3
elements contributes nothing and aborts nothing; every kept record's
status is one of `"200"`, `"301"`, `"-"`; and the Scenario B text parses
to exactly the one `"20230115000000"` record, the 404 line discarded. -/
theorem claimC5_record_parsing (now : Int) :
    (∀ h h' rest, parseCDXLines now (h :: rest) = parseCDXLines now (h' :: rest)) ∧
    (∀ l, stripTrailingComma (jsTrim l) = "" → parseLine now l = none) ∧
    (∀ l, jsonParse (stripTrailingComma (jsTrim l)) = none → parseLine now l = none) ∧
    (∀ l j elems, jsonParse (stripTrailingComma (jsTrim l)) = some j →
      jsElems j = some elems → elems.length < 3 → parseLine now l = none) ∧
    (∀ hd pre l post, parseLine now l = none →
      parseCDXLines now (hd :: (pre ++ l :: post)) = parseCDXLines now (hd :: (pre ++ post))) ∧
    (∀ lines r, r ∈ parseCDXLines now lines →
      r.statusCode = "200" ∨ r.statusCode = "301" ∨ r.statusCode = "-") ∧
    parseCDXText now scenarioBText =
      [{ timestamp := "20230115000000"
         url := Json.str "http://x.com/"
         statusCode := "200"
         archiveUrl := "https://web.archive.org/web/20230115000000/http://x.com/"
         changeType := determineChangeType "20230115000000" now }] := by
  refine ⟨?_, parseLine_blank now, parseLine_badJson now, ?_, ?_, ?_, ?_⟩
  · intro h h' rest
    rw [parseCDXLines_eq_filterMap, parseCDXLines_eq_filterMap]
    simp [List.drop_one]
  · intro l j elems hj he hlt
    exact parseLine_shortArray now l j elems hj he hlt
  · intro hd pre l post hnone
    rw [parseCDXLines_eq_filterMap, parseCDXLines_eq_filterMap]
    simp only [List.drop_one, List.tail_cons]
    rw [List.filterMap_append, List.filterMap_append]
    rw [List.filterMap_cons_none hnone]
  · intro lines r hr
    rw [parseCDXLines_eq_filterMap] at hr
    obtain ⟨a, _, ha⟩ := List.mem_filterMap.mp hr
    exact parseLine_status now a r ha
  · rfl

/-- Witness for C5: the blank-after-stripping line `" , "` is discarded
and its removal leaves the parse of the surrounding lines unchanged. -/
theorem claimC5_witness :
    parseLine 0 " , " = none ∧
    parseCDXLines 0 ["hdr", " , ", "[\"20230115000000\",\"u\",\"200\"]"] =
      parseCDXLines 0 ["hdr", "[\"20230115000000\",\"u\",\"200\"]"] := by
  have h := claimC5_record_parsing 0
  have hblank : parseLine 0 " , " = none := h.2.1 " , " (by rfl)
  exact ⟨hblank, h.2.2.2.2.1 "hdr" [] " , " ["[\"20230115000000\",\"u\",\"200\"]"] hblank⟩

/-! ### Orchestrator theorems -/

theorem runVariants_all_empty (now : Int) (fetch : String → FetchOutcome) :
    ∀ vs : List String, (∀ v ∈ vs, attemptVariant now (fetch v) = []) →
      runVariants now fetch vs = ([], none) := by
  intro vs
  induction vs with
  | nil => intro _; rfl
  | cons v rest ih =>
    intro h
    unfold runVariants
    rw [h v (List.mem_cons_self v rest)]
    simpa using ih (fun w hw => h w (List.mem_cons_of_mem v hw))

/-- C9: when every variant is attempted and none yields a record, the
endpoint answers with the well-formed no-data payload — `available:false`,
an empty snapshot list, the `wayback_api_no_data` tag, HTTP 200 and no
error — rather than raising one. -/
theorem claimC9_total_exhaustion_not_error (now : Int) (fetch : String → FetchOutcome)
    (url : String)
    (h : ∀ v ∈ generateUrlVariants url, attemptVariant now (fetch v) = []) :
    waybackEndpoint now (Except.ok fetch) url =
      { url := url
        available := false
        historicalSnapshots := []
        analysisQuality := "low"
        dataSource := "wayback_api_no_data"
        successfulUrl := none
        error := none
        httpStatus := 200 } := by
  have hrv := runVariants_all_empty now fetch (generateUrlVariants url) h
  show waybackHandler now fetch url = _
  unfold waybackHandler
  rw [hrv]
  rfl

/-- Witness for C9: every fetch fails outright for the URL `"x"`. -/
theorem claimC9_witness :
    waybackEndpoint 0 (Except.ok (fun _ => FetchOutcome.failed)) "x" =
      { url := "x"
        available := false
        historicalSnapshots := []
        analysisQuality := "low"
        dataSource := "wayback_api_no_data"
        successfulUrl := none
        error := none
        httpStatus := 200 } :=
  claimC9_total_exhaustion_not_error 0 (fun _ => FetchOutcome.failed) "x" (fun _ _ => rfl)

/-! ### The head-versus-tail window selection of `detectABTests` -/

/-- C1: on five monthly snapshots the analyzer emits four windows and
returns `tests.slice(0, 3)` — the FIRST three windows of the ascending
walk (the oldest ones), not the three most recent (the tail) that both
spec §4.6 and the code's own comment describe. -/
theorem claimC1_returns_oldest_windows :
    (detectABTests fiveMonthlySnapshots).map ABTest.period =
      ["2023/01/01 - 2023/02/01", "2023/02/01 - 2023/03/01", "2023/03/01 - 2023/04/01"] ∧
    (detectABTests fiveMonthlySnapshots).map ABTest.period ≠
      ["2023/02/01 - 2023/03/01", "2023/03/01 - 2023/04/01", "2023/04/01 - 2023/05/01"] := by
  have hms : fiveMonthlySnapshots.mergeSort
      (fun a b => localeLe a.timestamp b.timestamp) = fiveMonthlySnapshots :=
    List.mergeSort_of_sorted (by decide)
  have h1 : (detectABTests fiveMonthlySnapshots).map ABTest.period =
      ["2023/01/01 - 2023/02/01", "2023/02/01 - 2023/03/01", "2023/03/01 - 2023/04/01"] := by
    unfold detectABTests
    rw [if_neg (by decide), hms]
    rfl
  exact ⟨h1, by rw [h1]; decide⟩

/-- Witness for C6 at the concrete URL of spec Scenario A: the input is a
candidate and survives into the de-duplicated variant list. -/
theorem claimC6_witness :
    "https://example.com/products" ∈ rawVariants "https://example.com/products" ∧
    "https://example.com/products" ∈ generateUrlVariants "https://example.com/products" :=
  ⟨by decide,
    (claimC6_variant_list_dedup_head "https://example.com/products").2.2.2
      "https://example.com/products" (by decide)⟩

/-- Witness for C8 at the January–February window of the five-snapshot
input. -/
theorem claimC8_witness :
    0 ≤ (abWindow ⟨"20230101000000", "http://x.com/", "200", "", ""⟩
        ⟨"20230201000000", "http://x.com/", "200", "", ""⟩).confidence ∧
    (abWindow ⟨"20230101000000", "http://x.com/", "200", "", ""⟩
        ⟨"20230201000000", "http://x.com/", "200", "", ""⟩).confidence ≤ 95 := by
  have hms : fiveMonthlySnapshots.mergeSort
      (fun a b => localeLe a.timestamp b.timestamp) = fiveMonthlySnapshots :=
    List.mergeSort_of_sorted (by decide)
  refine claimC8_confidence_bounds fiveMonthlySnapshots _ ?_
  unfold detectABTests
  rw [if_neg (by decide), hms]
  exact List.Mem.head _
